import Mathlib

/-!
# Verification of the MP3-Downloader-SaaS job lifecycle

Shallow embedding of the acquisition/transcode job lifecycle of the
MP3-Downloader-SaaS repository: the progress route (`app/api/progress`),
the download route with its delayed reaper (`app/api/download`), and the
convert route's strategy selection, metadata cache, acquisition runner
post-processing and placeholder-audio synthesis (`app/api/convert`).

The filesystem is modelled as an association list from path strings to
byte lists; timers (`setTimeout`) are modelled as a pending list of
(deadline, action-key) pairs processed by an explicit `advance` step.
-/

set_option autoImplicit false

namespace MP3Saas

/-- A filesystem: a finite map from path to file contents (list of bytes). -/
abbrev FS := List (String × List Nat)

/-- `fs.pathExists p`: does a file exist at path `p`?  Models `fs.pathExists`. -/
def fsExists (fs : FS) (p : String) : Bool :=
  fs.any (fun e => e.1 == p)

/-- Read the contents at path `p`, if present.  Models `fs.readFile`. -/
def fsRead (fs : FS) (p : String) : Option (List Nat) :=
  (fs.find? (fun e => e.1 == p)).map (fun e => e.2)

/-- Remove the file at path `p`.  Models `fs.remove`. -/
def fsRemove (fs : FS) (p : String) : FS :=
  fs.filter (fun e => e.1 != p)

/-- Write contents `c` at path `p`, overwriting.  Models `fs.writeFile`. -/
def fsWrite (fs : FS) (p : String) (c : List Nat) : FS :=
  (p, c) :: fsRemove fs p

/-- Move the file at `src` to `dst`.  Models `fs.move` in the
destination-absent case only: fs-extra's `fs.move` with its default
`overwrite: false` throws `"dest already exists."` when a file is already
at `dst`, an error path this definition does not carry — theorems about a
successful move therefore assume the destination absent. -/
def fsMove (fs : FS) (src dst : String) : FS :=
  match fsRead fs src with
  | none => fs
  | some c => fsWrite (fsRemove fs src) dst c

/-- The temp directory (`path.join(process.cwd(), "temp")`); the working
directory is abstracted away. -/
def TEMP_DIR : String := "temp"

/-- Canonical artifact path `{temp_dir}/{id}{ext}` (`path.join(TEMP_DIR, videoId + ext)`). -/
def tempPath (videoId ext : String) : String :=
  TEMP_DIR ++ "/" ++ videoId ++ ext

/-- Extension list probed by the progress route (`part_000`, line 12):
`[".mp3", ".m4a", ".webm", ".opus"]`. -/
def progressExtensions : List String := [".mp3", ".m4a", ".webm", ".opus"]

/-- Extension list probed by the download route's `findVideoFile`
(`part_002`): `[".mp3", ".m4a", ".webm", ".opus", ".aac", ".wav"]`. -/
def downloadExtensions : List String := [".mp3", ".m4a", ".webm", ".opus", ".aac", ".wav"]

/-- Result of the progress route (`GET /progress/{id}`): the JSON body fields
that the claims are about (`size` is the byte length from `fs.stat`). -/
structure ProgressInfo where
  fileFound : Bool
  ready : Bool
  size : Option Nat
  format : Option String
  deriving Repr, DecidableEq

/-- The progress route body (`part_000`, lines 12–39): probe
`{TEMP_DIR}/{id}{ext}` for each ext in `progressExtensions`; on the first
hit answer `exists:true, ready:true` with the file's size and format
(extension without the dot); otherwise answer `exists:false, ready:false`.
(The JSON field `exists` is called `fileFound` here because `exists` is a
reserved word.) -/
def progressGET (fs : FS) (videoId : String) : ProgressInfo :=
  match progressExtensions.find? (fun ext => fsExists fs (tempPath videoId ext)) with
  | some ext =>
      { fileFound := true
        ready := true
        size := (fsRead fs (tempPath videoId ext)).map List.length
        format := some (ext.drop 1) }
  | none =>
      { fileFound := false, ready := false, size := none, format := none }

/-- `findVideoFile` of the download route (`part_002`): the first existing
path among `{TEMP_DIR}/{id}{ext}` for ext in `downloadExtensions`. -/
def findVideoFile (fs : FS) (videoId : String) : Option String :=
  (downloadExtensions.map (tempPath videoId)).find? (fun p => fsExists fs p)

/-- The content-type table and default of `getContentType` (`part_002`,
lines 78–89): a record lookup with `"audio/mpeg"` as the `||` fallback. -/
def contentTypes : List (String × String) :=
  [(".mp3", "audio/mpeg"), (".m4a", "audio/mp4"), (".webm", "audio/webm"),
   (".opus", "audio/opus"), (".aac", "audio/aac"), (".wav", "audio/wav")]

/-- `getContentType(extension)`: look the extension up in `contentTypes`,
defaulting to `"audio/mpeg"`. -/
def getContentType (extension : String) : String :=
  ((contentTypes.find? (fun e => e.1 == extension)).map (fun e => e.2)).getD "audio/mpeg"

/-! ## Strategy selection (`part_001`: `quickEnvironmentCheck`, `fastDownloadAudio`) -/

/-- The `environment.type` tag computed by `quickEnvironmentCheck`
(`part_001`, lines 95–101) from the two capability flags. -/
def environmentType (hasYtDlp hasFFmpeg : Bool) : String :=
  if hasYtDlp && hasFFmpeg then "full"
  else if hasYtDlp then "ytdlp-only"
  else "online"

/-- The strategy picked by the dispatch in `fastDownloadAudio` (`part_001`,
lines 173–179): 1 = `superFastDownloadWithFFmpeg`, 2 = `fastDownloadOriginal`,
3 = `onlineDownload`. -/
def selectStrategy (hasYtDlp hasFFmpeg : Bool) : Nat :=
  if hasYtDlp && hasFFmpeg then 1
  else if hasYtDlp then 2
  else 3

/-- Settle time of one `execAsync` probe: `some d` if the external tool
answers after `d` milliseconds, `none` if it hangs forever.  No timeout is
wrapped around the probe in the source. -/
abbrev SettleTime := Option Nat

/-- Settle time of `Promise.allSettled` over a list of probes: it settles
when the last probe settles, and never settles if any probe never does. -/
def allSettledTime (probes : List SettleTime) : SettleTime :=
  probes.foldr (fun p acc =>
    match p, acc with
    | some d, some a => some (max d a)
    | _, _ => none) (some 0)

/-- Settle time of `quickEnvironmentCheck` (`part_001`, lines 82–104): it
awaits `Promise.allSettled` of the two bare `execAsync` probes
(`yt-dlp --version`, `ffmpeg -version`), with no timeout applied. -/
def quickEnvironmentCheckTime (ytDlpProbe ffmpegProbe : SettleTime) : SettleTime :=
  allSettledTime [ytDlpProbe, ffmpegProbe]

/-! ## Acquisition runner post-processing (`part_001`, lines 339–376) -/

/-- Extension list of `findActualDownloadedFile` (`part_001`, line 341):
`[".m4a", ".webm", ".mp3", ".opus"]`, probed against `{id}_temp{ext}`. -/
def actualDownloadExtensions : List String := [".m4a", ".webm", ".mp3", ".opus"]

/-- Temp-name path `{TEMP_DIR}/{id}_temp{ext}` used by `fastDownloadOriginal`. -/
def tempNamePath (videoId ext : String) : String :=
  TEMP_DIR ++ "/" ++ videoId ++ "_temp" ++ ext

/-- The extension whose `{id}_temp{ext}` file `findActualDownloadedFile`
will hit first, if any. -/
def findTempExt (fs : FS) (videoId : String) : Option String :=
  actualDownloadExtensions.find? (fun ext => fsExists fs (tempNamePath videoId ext))

/-- `findActualDownloadedFile(videoId)` (`part_001`, lines 339–356): probe
`{id}_temp{ext}` for each known extension; on the first hit move it to
`{id}{ext}` and return that path and extension; otherwise return null
leaving the filesystem untouched. -/
def findActualDownloadedFile (fs : FS) (videoId : String) :
    Option (String × String) × FS :=
  match findTempExt fs videoId with
  | some ext =>
      (some (tempPath videoId ext, ext),
       fsMove fs (tempNamePath videoId ext) (tempPath videoId ext))
  | none => (none, fs)

/-- The post-download step of `fastDownloadOriginal` (`part_001`, lines
244–254): rename via `findActualDownloadedFile`; if nothing was found,
throw `"Downloaded file not found"` — no cleanup of temp files happens on
that throw (the background `.catch` only logs). -/
def fastDownloadOriginalPost (fs : FS) (videoId : String) :
    Except String (String × String) × FS :=
  match findActualDownloadedFile fs videoId with
  | (some res, fs') => (Except.ok res, fs')
  | (none, fs') => (Except.error "Downloaded file not found", fs')

/-- Candidate output paths of `findAndRenameOutputFile(outputPath)`
(`part_001`, lines 358–364) for `outputPath = {id}.mp3`: the `.mp3` path
itself and its `.m4a`, `.webm`, `.opus` siblings. -/
def renameCandidateExtensions : List String := [".mp3", ".m4a", ".webm", ".opus"]

/-- `findAndRenameOutputFile` (`part_001`, lines 358–376): find the first
existing candidate; if it is not already the `.mp3` output path, move it
there unchanged; if none exists, throw `"Downloaded file not found"`. -/
def findAndRenameOutputFile (fs : FS) (videoId : String) : Except String Unit × FS :=
  match renameCandidateExtensions.find? (fun ext => fsExists fs (tempPath videoId ext)) with
  | some ext =>
      if ext == ".mp3" then (Except.ok (), fs)
      else (Except.ok (), fsMove fs (tempPath videoId ext) (tempPath videoId ".mp3"))
  | none => (Except.error "Downloaded file not found", fs)

/-- The post-download step of `superFastDownloadWithFFmpeg` (`part_001`,
lines 182–219): run `findAndRenameOutputFile` on `{id}.mp3` and, on
success, report the canonical `.mp3` path with format `"mp3"`. -/
def superFastDownloadPost (fs : FS) (videoId : String) :
    Except String (String × String) × FS :=
  match findAndRenameOutputFile fs videoId with
  | (Except.ok _, fs') => (Except.ok (tempPath videoId ".mp3", "mp3"), fs')
  | (Except.error e, fs') => (Except.error e, fs')

/-! ## Placeholder-audio synthesis (`part_001`: `createFastDemo`, `createWavHeader`) -/

/-- Little-endian bytes of `DataView.setUint16(·, true)`: the value mod 2^16. -/
def u16le (n : Nat) : List Nat :=
  [n % 256, n / 256 % 256]

/-- Little-endian bytes of `DataView.setUint32(·, true)`: the value mod 2^32. -/
def u32le (n : Nat) : List Nat :=
  [n % 256, n / 256 % 256, n / 65536 % 256, n / 16777216 % 256]

/-- Little-endian bytes of `DataView.setInt16(·, true)`: two's-complement
encoding of the value mod 2^16. -/
def i16le (v : Int) : List Nat :=
  u16le (v.emod 65536).toNat

/-- ASCII bytes of the `writeString` helper of `createWavHeader`. -/
def asciiBytes (s : String) : List Nat :=
  s.toList.map Char.toNat

/-- `createWavHeader(samples, sampleRate)` (`part_001`, lines 378–403): the
44-byte RIFF/WAVE header, fields written in source order. -/
def createWavHeader (samples sampleRate : Nat) : List Nat :=
  asciiBytes "RIFF" ++ u32le (36 + samples * 2) ++
  asciiBytes "WAVE" ++ asciiBytes "fmt " ++
  u32le 16 ++ u16le 1 ++ u16le 1 ++
  u32le sampleRate ++ u32le (sampleRate * 2) ++
  u16le 2 ++ u16le 16 ++
  asciiBytes "data" ++ u32le (samples * 2)

/-- The clamp applied to each generated sample (`part_001`, line 325):
`Math.max(-32768, Math.min(32767, ·))`. -/
def clampSample (x : Int) : Int :=
  max (-32768) (min 32767 x)

/-- `createFastDemo`'s sample count: `sampleRate * duration = 22050 * 10`. -/
def demoSamples : Nat := 22050 * 10

/-- The 16-bit little-endian payload of the first `n` samples, in order:
sample `i` is `clampSample (w i)`, where `w i` stands for the source's
`Math.floor(Math.sin(2·π·440·i / sampleRate) * 0.3 * 32767)` — the
floating-point sine is abstracted as an arbitrary integer-valued waveform,
which only the clamp constrains. -/
def demoPayload (w : Nat → Int) : Nat → List Nat
  | 0 => []
  | n + 1 => demoPayload w n ++ i16le (clampSample (w n))

/-- The bytes `createFastDemo` (`part_001`, lines 314–337) writes to the
output path: the WAV header for 220500 samples at 22050 Hz followed by the
sample payload. -/
def createFastDemoBytes (w : Nat → Int) : List Nat :=
  createWavHeader demoSamples 22050 ++ demoPayload w demoSamples

/-- The 4-byte field starting at byte offset `i` of a byte list. -/
def fieldSlice (bytes : List Nat) (i : Nat) : List Nat :=
  (bytes.drop i).take 4

/-- Decode a little-endian 32-bit field from its four bytes. -/
def u32dec (b : List Nat) : Nat :=
  b.getD 0 0 + 256 * b.getD 1 0 + 65536 * b.getD 2 0 + 16777216 * b.getD 3 0

/-! ## Strategy 3: online services and demo fallback (`part_001`, lines 257–283) -/

/-- Result record of a strategy run (`{filePath, format, quality}`). -/
structure DownloadResult where
  filePath : String
  format : String
  quality : String
  deriving Repr, DecidableEq

/-- Outcome of one online service: the fetched audio bytes, or a failure. -/
abbrev ServiceOutcome := Except String (List Nat)

/-- The services list of `onlineDownload` (`part_001`, lines 261–264): it
holds exactly the one `cobaltDownload(url)` promise. -/
def onlineServices (cobalt : ServiceOutcome) : List ServiceOutcome :=
  [cobalt]

/-- `Promise.race` over the services: it settles with the first promise to
settle; over the source's single-element list that is that promise. -/
def raceServices (services : List ServiceOutcome) : ServiceOutcome :=
  match services with
  | [] => Except.error "no services"
  | s :: _ => s

/-- Did an online service settle successfully? -/
def serviceOk : ServiceOutcome → Bool
  | Except.ok _ => true
  | Except.error _ => false

/-- `onlineDownload(url, videoId)` (`part_001`, lines 257–283): race the
online services; on success write the fetched bytes to `{id}.mp3`; if the
race fails, fall back to `createFastDemo` on the same canonical path.
Either way a result resolves. -/
def onlineDownload (w : Nat → Int) (cobalt : ServiceOutcome) (fs : FS)
    (videoId : String) : DownloadResult × FS :=
  let outputPath := tempPath videoId ".mp3"
  match raceServices (onlineServices cobalt) with
  | Except.ok buf =>
      ({ filePath := outputPath, format := "mp3", quality := "Online Service" },
       fsWrite fs outputPath buf)
  | Except.error _ =>
      ({ filePath := outputPath, format := "mp3", quality := "Demo" },
       fsWrite fs outputPath (createFastDemoBytes w))

/-! ## Download route and reaper (`part_002`, lines 14–58) -/

/-- The extension the download route's `findVideoFile` hits first, if any.
`findVideoFile` returns the corresponding path `tempPath videoId ext`; the
route then recovers exactly this extension via `path.extname`. -/
def findVideoFileExt (fs : FS) (videoId : String) : Option String :=
  downloadExtensions.find? (fun ext => fsExists fs (tempPath videoId ext))

/-- Serving state: the shared temp filesystem plus the pending `setTimeout`
deletions, as (deadline in ms, path) pairs. -/
structure ServeState where
  fs : FS
  pending : List (Nat × String)
  deriving Repr, DecidableEq

/-- Response of `GET /download/{id}`: HTTP status, body bytes, content type. -/
structure ServeResponse where
  status : Nat
  body : Option (List Nat)
  contentType : Option String
  deriving Repr, DecidableEq

/-- The grace period of the reaper: `5 * 60 * 1000` milliseconds. -/
def reapDelay : Nat := 5 * 60 * 1000

/-- `GET /download/{id}` (`part_002`, lines 14–58): find the artifact; on a
miss answer 404; on a hit read and return the full file with the content
type derived from its extension, and schedule deletion of that path
`reapDelay` ms after `now` — the moment of serving — regardless of the
transfer. -/
def downloadGET (s : ServeState) (now : Nat) (videoId : String) :
    ServeResponse × ServeState :=
  match findVideoFileExt s.fs videoId with
  | none => ({ status := 404, body := none, contentType := none }, s)
  | some ext =>
      ({ status := 200
         body := fsRead s.fs (tempPath videoId ext)
         contentType := some (getContentType ext) },
       { fs := s.fs, pending := s.pending ++ [(now + reapDelay, tempPath videoId ext)] })

/-- The keys of the pending timers that are due at time `now`. -/
def dueKeys (pending : List (Nat × String)) (now : Nat) : List String :=
  (pending.filter (fun e => decide (e.1 ≤ now))).map (fun e => e.2)

/-- Advance the clock to `now`: every due `setTimeout` callback fires,
removing its path (if still present); the rest stay pending. -/
def advance (s : ServeState) (now : Nat) : ServeState :=
  { fs := s.fs.filter (fun e => !(dueKeys s.pending now).any (fun k => k == e.1))
    pending := s.pending.filter (fun e => decide (now < e.1)) }

/-! ## Metadata cache (`part_001`, lines 106–168) -/

/-- Resolved video metadata: title, thumbnail URL, duration in seconds. -/
structure VideoInfo where
  title : String
  thumbnail : String
  duration : Nat
  deriving Repr, DecidableEq

/-- State of `videoInfoCache` plus its pending eviction timers, as
(deadline in ms, videoId) pairs. -/
structure CacheState where
  cache : List (String × VideoInfo)
  pending : List (Nat × String)
  deriving Repr, DecidableEq

/-- `videoInfoCache.get` / `.has`: look a videoId up in the cache map. -/
def cacheLookup (c : List (String × VideoInfo)) (videoId : String) : Option VideoInfo :=
  (c.find? (fun e => e.1 == videoId)).map (fun e => e.2)

/-- `videoInfoCache.set`: overwrite the entry for a videoId. -/
def cacheSet (c : List (String × VideoInfo)) (videoId : String) (v : VideoInfo) :
    List (String × VideoInfo) :=
  (videoId, v) :: c.filter (fun e => e.1 != videoId)

/-- The cache TTL: `60 * 60 * 1000` milliseconds (one hour). -/
def cacheTTL : Nat := 60 * 60 * 1000

/-- `getCachedVideoInfo` (`part_001`, lines 106–168).  On a cache hit the
cached value is returned and the underlying sources are not consulted; on
a miss the yt-dlp / oEmbed fallback chain runs — its outcome is abstracted
as `fetch` — and a non-null result is cached with a one-shot eviction
timer `cacheTTL` ms ahead.  The returned `Bool` records whether the
underlying sources were invoked. -/
def getCachedVideoInfo (fetch : Option VideoInfo) (s : CacheState) (now : Nat)
    (videoId : String) : Option VideoInfo × Bool × CacheState :=
  match cacheLookup s.cache videoId with
  | some v => (some v, false, s)
  | none =>
      match fetch with
      | some v =>
          (some v, true,
           { cache := cacheSet s.cache videoId v
             pending := s.pending ++ [(now + cacheTTL, videoId)] })
      | none => (none, true, s)

/-- Advance the cache clock to `now`: every due eviction timer fires,
deleting its videoId from the cache; the rest stay pending. -/
def cacheAdvance (s : CacheState) (now : Nat) : CacheState :=
  { cache := s.cache.filter (fun e => !(dueKeys s.pending now).any (fun k => k == e.1))
    pending := s.pending.filter (fun e => decide (now < e.1)) }

/-! ## Filesystem helper lemmas -/

theorem fsRead_fsWrite_self (fs : FS) (p : String) (c : List Nat) :
    fsRead (fsWrite fs p c) p = some c := by
  simp [fsRead, fsWrite, List.find?]

theorem fsExists_fsWrite_self (fs : FS) (p : String) (c : List Nat) :
    fsExists (fsWrite fs p c) p = true := by
  simp [fsExists, fsWrite]

theorem fsExists_fsRemove_self (fs : FS) (p : String) :
    fsExists (fsRemove fs p) p = false := by
  apply List.any_eq_false.mpr
  intro e he
  have := (List.mem_filter.mp he).2
  simp only [bne_iff_ne, ne_eq] at this
  simp [this]

theorem fsExists_filter_imp (fs : FS) (f : String × List Nat → Bool) (p : String)
    (h : fsExists (fs.filter f) p = true) : fsExists fs p = true := by
  obtain ⟨e, he, hep⟩ := List.any_eq_true.mp h
  exact List.any_eq_true.mpr ⟨e, (List.mem_filter.mp he).1, hep⟩

theorem fsExists_cons (e : String × List Nat) (t : FS) (p : String) :
    fsExists (e :: t) p = ((e.1 == p) || fsExists t p) := by
  simp [fsExists]

theorem fsRead_none_of_not_exists (fs : FS) (p : String)
    (h : fsExists fs p = false) : fsRead fs p = none := by
  have hall := List.any_eq_false.mp h
  unfold fsRead
  rw [List.find?_eq_none.mpr hall]
  rfl

theorem fsRead_isSome_of_exists (fs : FS) (p : String)
    (h : fsExists fs p = true) : (fsRead fs p).isSome = true := by
  obtain ⟨e, he, hep⟩ := List.any_eq_true.mp h
  unfold fsRead
  have hfs : (List.find? (fun e => e.1 == p) fs).isSome :=
    List.find?_isSome.mpr ⟨e, he, hep⟩
  obtain ⟨x, hx⟩ := Option.isSome_iff_exists.mp hfs
  rw [hx]
  rfl

theorem fsRead_fsMove_self (fs : FS) (src dst : String)
    (h : fsExists fs src = true) :
    fsRead (fsMove fs src dst) dst = fsRead fs src := by
  have hs := fsRead_isSome_of_exists fs src h
  obtain ⟨c, hc⟩ := Option.isSome_iff_exists.mp hs
  simp [fsMove, hc, fsRead_fsWrite_self]

theorem fsExists_fsMove_src (fs : FS) (src dst : String) (hne : src ≠ dst) :
    fsExists (fsMove fs src dst) src = false := by
  cases hc : fsRead fs src with
  | none =>
      have : fsExists fs src = false := by
        by_contra hx
        have := fsRead_isSome_of_exists fs src (by revert hx; cases fsExists fs src <;> simp)
        simp [hc] at this
      simp [fsMove, hc, this]
  | some c =>
      simp only [fsMove, hc, fsWrite, fsExists, List.any_cons]
      have h1 : (dst == src) = false := by simp [Ne.symm hne]
      have h2 : fsExists (fsRemove (fsRemove fs src) dst) src = false := by
        by_contra hx
        have hx' : fsExists (fsRemove (fsRemove fs src) dst) src = true := by
          revert hx; cases fsExists (fsRemove (fsRemove fs src) dst) src <;> simp
        have := fsExists_filter_imp _ _ _ hx'
        simp [fsExists_fsRemove_self] at this
      simp only [fsExists] at h2
      simp [h1, h2]

theorem fsExists_fsMove_dst (fs : FS) (src dst : String)
    (h : fsExists fs src = true) :
    fsExists (fsMove fs src dst) dst = true := by
  have hs := fsRead_isSome_of_exists fs src h
  obtain ⟨c, hc⟩ := Option.isSome_iff_exists.mp hs
  simp [fsMove, hc, fsExists_fsWrite_self]

theorem fsExists_filter_not_any (fs : FS) (due : List String) (p : String) :
    fsExists (fs.filter (fun e => !due.any (fun k => k == e.1))) p =
      (fsExists fs p && !due.any (fun k => k == p)) := by
  induction fs with
  | nil => simp [fsExists]
  | cons e t ih =>
      rw [List.filter_cons]
      by_cases hp : e.1 = p
      · cases hany : due.any (fun k => k == p) with
        | true => simp [hp, hany, ih, fsExists_cons]
        | false => simp [hp, hany, ih, fsExists_cons]
      · have hbp : (e.1 == p) = false := by simp [hp]
        cases hany : due.any (fun k => k == e.1) with
        | true => simp [hany, ih, hbp, fsExists_cons]
        | false => simp [hany, ih, hbp, fsExists_cons]

theorem tempNamePath_ne_tempPath (videoId ext : String) :
    tempNamePath videoId ext ≠ tempPath videoId ext := by
  intro h
  have hlen := congrArg String.length h
  have h5 : ("_temp" : String).length = 5 := rfl
  simp only [tempNamePath, tempPath, String.length_append, h5] at hlen
  omega

/-! ## Auxiliary lemmas for the WAV payload -/

theorem demoPayload_length (w : Nat → Int) (n : Nat) :
    (demoPayload w n).length = 2 * n := by
  induction n with
  | zero => rfl
  | succ n ih =>
      simp only [demoPayload, List.length_append, ih, i16le, u16le, List.length_cons,
        List.length_nil]
      omega

theorem clampSample_bounds (x : Int) :
    -32768 ≤ clampSample x ∧ clampSample x ≤ 32767 := by
  unfold clampSample
  exact ⟨le_max_left _ _, max_le (by norm_num) (min_le_left _ _)⟩

theorem u32dec_u32le (n : Nat) (h : n < 4294967296) : u32dec (u32le n) = n := by
  simp only [u32dec, u32le, List.getD_cons_zero, List.getD_cons_succ]
  omega

/-! ## Claim theorems -/

/-- C2: strategy selection is a deterministic pure function of the two
capability flags — `(hasYtDlp, hasFFmpeg) = (true,true)` selects strategy 1
(native download+transcode), `(true,false)` selects strategy 2 (download
audio without transcoding), `(false,false)` selects strategy 3 (online
services, else placeholder synthesis); the matching environment tags are
`"full"`, `"ytdlp-only"`, `"online"`.  The selector is a total Lean
function, hence deterministic and side-effect free. -/
theorem selectStrategy_capability_table :
    selectStrategy true true = 1 ∧ selectStrategy true false = 2 ∧
    selectStrategy false false = 3 ∧
    environmentType true true = "full" ∧ environmentType true false = "ytdlp-only" ∧
    environmentType false false = "online" :=
  ⟨rfl, rfl, rfl, rfl, rfl, rfl⟩

/-- C10: `getContentType` is total — each of the six known extensions maps
to its audio MIME type, and every other extension falls back to
`"audio/mpeg"`, so serving never fails on an unrecognized extension. -/
theorem getContentType_known_and_default :
    getContentType ".mp3" = "audio/mpeg" ∧ getContentType ".m4a" = "audio/mp4" ∧
    getContentType ".webm" = "audio/webm" ∧ getContentType ".opus" = "audio/opus" ∧
    getContentType ".aac" = "audio/aac" ∧ getContentType ".wav" = "audio/wav" ∧
    ∀ ext : String, ext ∉ contentTypes.map Prod.fst →
      getContentType ext = "audio/mpeg" := by
  refine ⟨rfl, rfl, rfl, rfl, rfl, rfl, ?_⟩
  intro ext hext
  have hnone : contentTypes.find? (fun e => e.1 == ext) = none := by
    apply List.find?_eq_none.mpr
    intro e he
    simp only [beq_iff_eq]
    intro h1
    exact hext (h1 ▸ List.mem_map_of_mem Prod.fst he)
  simp [getContentType, hnone]

/-- C10 witness: the unknown extension `".flac"` gets the default type. -/
theorem getContentType_known_and_default_witness :
    getContentType ".flac" = "audio/mpeg" :=
  getContentType_known_and_default.2.2.2.2.2.2 ".flac" (by decide)

/-- C7 counterexample: the capability probes of `quickEnvironmentCheck`
carry no timeout at all.  A hanging `ffmpeg -version` probe (settle time
`none`) stalls the check forever, and a slow probe stalls it arbitrarily
long — here 10^9 ms, far beyond 5000 ms, the longest timeout the same
module uses anywhere ("short" in the claim's sense). -/
theorem quickEnvironmentCheck_stalls_counterexample :
    quickEnvironmentCheckTime (some 0) none = none ∧
    quickEnvironmentCheckTime (some 1000000000) (some 0) = some 1000000000 ∧
    ¬(1000000000 ≤ 5000) :=
  ⟨rfl, rfl, by decide⟩

/-- C7 amended: no per-probe timeout is applied — `quickEnvironmentCheck`
settles exactly when both bare `execAsync` probes have settled (at the
later of their settle times), and it never settles while either probe
hangs, so a hanging or slow external tool stalls the request-handling
path for as long as the probe takes. -/
theorem quickEnvironmentCheck_no_probe_timeout :
    (∀ d1 d2 : Nat, quickEnvironmentCheckTime (some d1) (some d2) = some (max d1 d2)) ∧
    (∀ d1 : Nat, quickEnvironmentCheckTime (some d1) none = none) ∧
    (∀ d2 : SettleTime, quickEnvironmentCheckTime none d2 = none) := by
  refine ⟨fun d1 d2 => ?_, fun d1 => rfl, fun d2 => ?_⟩
  · show some (max d1 (max d2 0)) = some (max d1 d2)
    rw [Nat.max_zero]
  · cases d2 <;> rfl

/-- C9: `createFastDemo` writes exactly `44 + 2·(22050·10) = 441044` bytes;
the RIFF chunk-size field (bytes 4–7, little-endian) is `36 + 2·samples`,
the data-size field (bytes 40–43) is `2·samples` and matches the payload
byte length exactly, and — thanks to the clamp — every generated 16-bit
sample value lies within `[-32768, 32767]`, for every waveform `w` (the
floating-point sine is abstracted as an arbitrary integer function). -/
theorem createFastDemo_wav_layout (w : Nat → Int) :
    (createFastDemoBytes w).length = 44 + 2 * (22050 * 10) ∧
    fieldSlice (createFastDemoBytes w) 4 = u32le (36 + 2 * demoSamples) ∧
    u32dec (fieldSlice (createFastDemoBytes w) 4) = 36 + 2 * demoSamples ∧
    fieldSlice (createFastDemoBytes w) 40 = u32le (2 * demoSamples) ∧
    u32dec (fieldSlice (createFastDemoBytes w) 40) = 2 * demoSamples ∧
    (demoPayload w demoSamples).length = 2 * demoSamples ∧
    ∀ i : Nat, -32768 ≤ clampSample (w i) ∧ clampSample (w i) ≤ 32767 := by
  have h4 : fieldSlice (createFastDemoBytes w) 4 = u32le (36 + 2 * demoSamples) := rfl
  have h40 : fieldSlice (createFastDemoBytes w) 40 = u32le (2 * demoSamples) := rfl
  refine ⟨?_, h4, ?_, h40, ?_, demoPayload_length w demoSamples,
    fun i => clampSample_bounds (w i)⟩
  · rw [createFastDemoBytes, List.length_append, demoPayload_length]
    rfl
  · rw [h4]
    exact u32dec_u32le _ (by decide)
  · rw [h40]
    exact u32dec_u32le _ (by decide)

/-- C6: under strategy 3 `onlineDownload` races the online-services list
(the source's list holds the single `cobaltDownload` promise; `Promise.race`
settles with the first promise to settle) and resolves successfully in
every case: the result always names the canonical `{id}.mp3` path with
format `"mp3"` and a file is present there afterwards; the placeholder
demo artifact is synthesized at that canonical path if and only if every
service in the list failed. -/
theorem onlineDownload_first_success_or_demo (w : Nat → Int) (cobalt : ServiceOutcome)
    (fs : FS) (videoId : String) :
    (onlineDownload w cobalt fs videoId).1.filePath = tempPath videoId ".mp3" ∧
    (onlineDownload w cobalt fs videoId).1.format = "mp3" ∧
    fsExists (onlineDownload w cobalt fs videoId).2 (tempPath videoId ".mp3") = true ∧
    (((onlineDownload w cobalt fs videoId).1.quality = "Demo" ∧
      fsRead (onlineDownload w cobalt fs videoId).2 (tempPath videoId ".mp3") =
        some (createFastDemoBytes w)) ↔
      (onlineServices cobalt).all (fun s => !serviceOk s) = true) := by
  cases cobalt with
  | ok buf =>
      refine ⟨rfl, rfl, fsExists_fsWrite_self _ _ _, ?_⟩
      constructor
      · rintro ⟨h, -⟩
        exact absurd (show ("Online Service" : String) = "Demo" from h) (by decide)
      · intro h
        simp [onlineServices, serviceOk] at h
  | error e =>
      refine ⟨rfl, rfl, fsExists_fsWrite_self _ _ _, ?_⟩
      constructor
      · intro _
        rfl
      · intro _
        exact ⟨rfl, fsRead_fsWrite_self _ _ _⟩

/-- C1 counterexample: the claim's extension set is the download route's
six-element set, but the progress route probes only four extensions.  On a
filesystem holding exactly `{temp_dir}/vid1.wav` — an extension in the
claimed set — `GET /progress/vid1` answers `exists:false`, refuting the
claimed if-and-only-if. -/
theorem progressGET_misses_wav_counterexample :
    (progressGET [(tempPath "vid1" ".wav", [0, 1, 2])] "vid1").fileFound = false ∧
    downloadExtensions.any
      (fun ext => fsExists [(tempPath "vid1" ".wav", [0, 1, 2])]
        (tempPath "vid1" ext)) = true := by
  constructor <;> rfl

/-- C1 amended: `GET /progress/{id}` reports readiness purely from file
presence over the progress route's own four-extension set — it answers
`exists:true` (with `ready:true`) iff a file `{temp_dir}/{id}.{ext}`
exists for some ext in `{mp3, m4a, webm, opus}` (not the download route's
six-element set), and `exists:false` with `ready:false` otherwise; in
particular for every identifier with no artifact at all — e.g. one never
submitted — it answers `exists:false`. -/
theorem progressGET_reports_presence (fs : FS) (videoId : String) :
    (progressGET fs videoId).fileFound =
      progressExtensions.any (fun ext => fsExists fs (tempPath videoId ext)) ∧
    (progressGET fs videoId).ready = (progressGET fs videoId).fileFound := by
  cases h : progressExtensions.find? (fun ext => fsExists fs (tempPath videoId ext)) with
  | some ext =>
      have hmem := List.mem_of_find?_eq_some h
      have hp := List.find?_some h
      have hany : progressExtensions.any (fun ext => fsExists fs (tempPath videoId ext)) =
          true := List.any_eq_true.mpr ⟨ext, hmem, hp⟩
      simp [progressGET, h, hany]
  | none =>
      have hall := List.find?_eq_none.mp h
      have hany : progressExtensions.any (fun ext => fsExists fs (tempPath videoId ext)) =
          false := List.any_eq_false.mpr hall
      simp [progressGET, h, hany]

/-- C3 counterexample: a run of the acquisition runner whose external tool
produced only `{id}_temp.aac` — outside the known-extension set — fails as
claimed, but the partial temp artifact for that identifier is NOT removed:
it is still on disk after the failure (the code's only failure handling is
a log statement). -/
theorem runner_failure_leaves_partial_counterexample :
    (fastDownloadOriginalPost [(tempNamePath "vid3" ".aac", [7, 7])] "vid3").1 =
      Except.error "Downloaded file not found" ∧
    fsExists (fastDownloadOriginalPost [(tempNamePath "vid3" ".aac", [7, 7])] "vid3").2
      (tempNamePath "vid3" ".aac") = true := by
  constructor <;> rfl

/-- C3 amended: after the external process completes the runner moves
whichever known-extension temp output was produced to the canonical
`{id}.{ext}` path (content unchanged, temp name gone), provided no file
already sits at that canonical path — `fs.move` with its default
`overwrite: false` would throw on a pre-existing destination; if none of
the known extensions was produced the run fails with no retry — but on
that failure the partial temp artifacts are NOT removed: the filesystem
is returned exactly as it was. -/
theorem fastDownloadOriginal_rename_or_fail_without_cleanup (fs : FS) (videoId : String) :
    (findTempExt fs videoId = none →
      fastDownloadOriginalPost fs videoId =
        (Except.error "Downloaded file not found", fs)) ∧
    (∀ ext, findTempExt fs videoId = some ext →
      fsExists fs (tempPath videoId ext) = false →
      (fastDownloadOriginalPost fs videoId).1 = Except.ok (tempPath videoId ext, ext) ∧
      fsRead (fastDownloadOriginalPost fs videoId).2 (tempPath videoId ext) =
        fsRead fs (tempNamePath videoId ext) ∧
      fsExists (fastDownloadOriginalPost fs videoId).2 (tempNamePath videoId ext) = false) := by
  constructor
  · intro h
    simp [fastDownloadOriginalPost, findActualDownloadedFile, h]
  · intro ext h _hdst
    have h' : List.find? (fun ext => fsExists fs (tempNamePath videoId ext))
        actualDownloadExtensions = some ext := h
    have hex0 := List.find?_some h'
    have hex : fsExists fs (tempNamePath videoId ext) = true := hex0
    refine ⟨?_, ?_, ?_⟩
    · simp [fastDownloadOriginalPost, findActualDownloadedFile, h]
    · simp only [fastDownloadOriginalPost, findActualDownloadedFile, h]
      exact fsRead_fsMove_self fs _ _ hex
    · simp only [fastDownloadOriginalPost, findActualDownloadedFile, h]
      exact fsExists_fsMove_src fs _ _ (tempNamePath_ne_tempPath videoId ext)

/-- C3 witness: with `{id}_temp.m4a` produced and no file at the
canonical `{id}.m4a` path, the runner succeeds and reports that canonical
path. -/
theorem fastDownloadOriginal_rename_witness :
    (fastDownloadOriginalPost [(tempNamePath "vid4" ".m4a", [5])] "vid4").1 =
      Except.ok (tempPath "vid4" ".m4a", ".m4a") :=
  ((fastDownloadOriginal_rename_or_fail_without_cleanup
      [(tempNamePath "vid4" ".m4a", [5])] "vid4").2 ".m4a" rfl rfl).1

/-- C8: a successful strategy-1 run always reports the canonical
`{temp_dir}/{id}.mp3` path and format `"mp3"`: whichever one of `.mp3`,
`.m4a`, `.webm`, `.opus` the external tool actually produced (`ext`, with
the other candidates absent), `findAndRenameOutputFile` moves that file to
the `.mp3` name with its bytes unchanged, and the `.mp3` name is served
with Content-Type `audio/mpeg` — so a non-MP3 container can be served
under the `.mp3` name. -/
theorem superFastDownload_canonical_mp3 (fs : FS) (videoId ext : String)
    (hmem : ext ∈ renameCandidateExtensions)
    (hex : fsExists fs (tempPath videoId ext) = true)
    (huniq : ∀ x ∈ renameCandidateExtensions, x ≠ ext →
      fsExists fs (tempPath videoId x) = false) :
    (superFastDownloadPost fs videoId).1 = Except.ok (tempPath videoId ".mp3", "mp3") ∧
    fsRead (superFastDownloadPost fs videoId).2 (tempPath videoId ".mp3") =
      fsRead fs (tempPath videoId ext) ∧
    getContentType ".mp3" = "audio/mpeg" := by
  have hfind : renameCandidateExtensions.find?
      (fun x => fsExists fs (tempPath videoId x)) = some ext := by
    fin_cases hmem
    · simp [renameCandidateExtensions, List.find?, hex]
    · have h1 : fsExists fs (tempPath videoId ".mp3") = false :=
        huniq ".mp3" (by decide) (by decide)
      simp [renameCandidateExtensions, List.find?, h1, hex]
    · have h1 : fsExists fs (tempPath videoId ".mp3") = false :=
        huniq ".mp3" (by decide) (by decide)
      have h2 : fsExists fs (tempPath videoId ".m4a") = false :=
        huniq ".m4a" (by decide) (by decide)
      simp [renameCandidateExtensions, List.find?, h1, h2, hex]
    · have h1 : fsExists fs (tempPath videoId ".mp3") = false :=
        huniq ".mp3" (by decide) (by decide)
      have h2 : fsExists fs (tempPath videoId ".m4a") = false :=
        huniq ".m4a" (by decide) (by decide)
      have h3 : fsExists fs (tempPath videoId ".webm") = false :=
        huniq ".webm" (by decide) (by decide)
      simp [renameCandidateExtensions, List.find?, h1, h2, h3, hex]
  refine ⟨?_, ?_, rfl⟩
  · simp only [superFastDownloadPost, findAndRenameOutputFile, hfind]
    cases hc : (ext == ".mp3") <;> simp
  · simp only [superFastDownloadPost, findAndRenameOutputFile, hfind]
    cases hc : (ext == ".mp3") with
    | true =>
        have : ext = ".mp3" := by simpa using hc
        simp [this]
    | false =>
        simp only [Bool.false_eq_true, if_false]
        exact fsRead_fsMove_self fs _ _ hex

/-- C8 witness: a produced `.webm` file ends up served from the `.mp3`
name with its bytes unchanged. -/
theorem superFastDownload_canonical_mp3_witness :
    (superFastDownloadPost [(tempPath "vid8" ".webm", [9, 8, 7])] "vid8").1 =
      Except.ok (tempPath "vid8" ".mp3", "mp3") ∧
    fsRead (superFastDownloadPost [(tempPath "vid8" ".webm", [9, 8, 7])] "vid8").2
      (tempPath "vid8" ".mp3") = some [9, 8, 7] := by
  have h := superFastDownload_canonical_mp3 [(tempPath "vid8" ".webm", [9, 8, 7])]
    "vid8" ".webm" (by decide) (by decide) (by decide)
  exact ⟨h.1, by rw [h.2.1]; rfl⟩

/-- C4: for an identifier whose (unique) artifact exists, serving at `t0`
and serving again at `t1` within the 5-minute grace period both succeed
with identical responses (hence identical bytes); the first serve
schedules deletion exactly `reapDelay` ms after the moment of serving,
regardless of the transfer; and once the delay has elapsed (clock advanced
to `t2`) the artifact is absent, so a further `GET /download/{id}` answers
404. -/
theorem downloadGET_grace_period_and_reap
    (fs : FS) (videoId ext : String) (t0 t1 t2 : Nat)
    (hfind : findVideoFileExt fs videoId = some ext)
    (huniq : ∀ x ∈ downloadExtensions, fsExists fs (tempPath videoId x) = true →
      tempPath videoId x = tempPath videoId ext)
    (h01 : t0 ≤ t1) (h1 : t1 < t0 + reapDelay) (h2 : t1 + reapDelay ≤ t2) :
    (downloadGET ⟨fs, []⟩ t0 videoId).1.status = 200 ∧
    (downloadGET ⟨fs, []⟩ t0 videoId).1.body.isSome = true ∧
    (downloadGET ⟨fs, []⟩ t0 videoId).2.pending =
      [(t0 + reapDelay, tempPath videoId ext)] ∧
    (downloadGET (advance (downloadGET ⟨fs, []⟩ t0 videoId).2 t1) t1 videoId).1 =
      (downloadGET ⟨fs, []⟩ t0 videoId).1 ∧
    (downloadGET (advance (downloadGET (advance (downloadGET ⟨fs, []⟩ t0 videoId).2 t1)
        t1 videoId).2 t2) t2 videoId).1.status = 404 := by
  have h' : List.find? (fun x => fsExists fs (tempPath videoId x)) downloadExtensions =
      some ext := hfind
  have hex0 := List.find?_some h'
  have hex : fsExists fs (tempPath videoId ext) = true := hex0
  have hs1 : downloadGET ⟨fs, []⟩ t0 videoId =
      ({ status := 200, body := fsRead fs (tempPath videoId ext),
         contentType := some (getContentType ext) },
       ⟨fs, [(t0 + reapDelay, tempPath videoId ext)]⟩) := by
    simp [downloadGET, hfind]
  have hnd : ¬ (t0 + reapDelay ≤ t1) := by omega
  have hdk1 : dueKeys [(t0 + reapDelay, tempPath videoId ext)] t1 = [] := by
    simp [dueKeys, hnd]
  have hadv1 : advance ⟨fs, [(t0 + reapDelay, tempPath videoId ext)]⟩ t1 =
      ⟨fs, [(t0 + reapDelay, tempPath videoId ext)]⟩ := by
    simp only [advance, hdk1, ServeState.mk.injEq]
    refine ⟨List.filter_eq_self.mpr (fun a _ => by simp), ?_⟩
    simp [h1]
  have hs2 : downloadGET ⟨fs, [(t0 + reapDelay, tempPath videoId ext)]⟩ t1 videoId =
      ({ status := 200, body := fsRead fs (tempPath videoId ext),
         contentType := some (getContentType ext) },
       ⟨fs, [(t0 + reapDelay, tempPath videoId ext),
             (t1 + reapDelay, tempPath videoId ext)]⟩) := by
    simp [downloadGET, hfind]
  have hd1 : t0 + reapDelay ≤ t2 := by omega
  have hdk2 : dueKeys [(t0 + reapDelay, tempPath videoId ext),
      (t1 + reapDelay, tempPath videoId ext)] t2 =
      [tempPath videoId ext, tempPath videoId ext] := by
    simp [dueKeys, hd1, h2]
  have hnone : findVideoFileExt
      ((advance ⟨fs, [(t0 + reapDelay, tempPath videoId ext),
        (t1 + reapDelay, tempPath videoId ext)]⟩ t2).fs) videoId = none := by
    simp only [advance, hdk2]
    apply List.find?_eq_none.mpr
    intro x hx
    rw [fsExists_filter_not_any]
    cases hfx : fsExists fs (tempPath videoId x) with
    | false => simp [hfx]
    | true =>
        have heq := huniq x hx hfx
        rw [heq]
        simp
  have hpipe1 : (downloadGET ⟨fs, []⟩ t0 videoId).2 =
      ⟨fs, [(t0 + reapDelay, tempPath videoId ext)]⟩ := by rw [hs1]
  have hr2 : downloadGET (advance (downloadGET ⟨fs, []⟩ t0 videoId).2 t1) t1 videoId =
      ({ status := 200, body := fsRead fs (tempPath videoId ext),
         contentType := some (getContentType ext) },
       ⟨fs, [(t0 + reapDelay, tempPath videoId ext),
             (t1 + reapDelay, tempPath videoId ext)]⟩) := by
    rw [hpipe1, hadv1, hs2]
  have hr2s : (downloadGET (advance (downloadGET ⟨fs, []⟩ t0 videoId).2 t1)
      t1 videoId).2 =
      ⟨fs, [(t0 + reapDelay, tempPath videoId ext),
            (t1 + reapDelay, tempPath videoId ext)]⟩ := by rw [hr2]
  refine ⟨?_, ?_, ?_, ?_, ?_⟩
  · rw [hs1]
  · rw [hs1]
    exact fsRead_isSome_of_exists fs _ hex
  · rw [hs1]
  · rw [hr2, hs1]
  · rw [hr2s]
    simp [downloadGET, hnone]

/-- C4 witness: a single `.mp3` artifact at times `t0 = 0`, `t1 = 1`,
`t2 = 300001`. -/
theorem downloadGET_grace_period_and_reap_witness :
    (downloadGET ⟨[(tempPath "vidw" ".mp3", [1, 2, 3])], []⟩ 0 "vidw").1.status = 200 ∧
    (downloadGET (advance (downloadGET (advance
      (downloadGET ⟨[(tempPath "vidw" ".mp3", [1, 2, 3])], []⟩ 0 "vidw").2 1)
      1 "vidw").2 300001) 300001 "vidw").1.status = 404 := by
  have h := downloadGET_grace_period_and_reap [(tempPath "vidw" ".mp3", [1, 2, 3])]
    "vidw" ".mp3" 0 1 300001 (by decide) (by decide) (by decide) (by decide) (by decide)
  exact ⟨h.1, h.2.2.2.2⟩

/-- C5: on an empty cache a first `getCachedVideoInfo` call at `t0`
invokes the underlying sources, returns the fetched metadata and caches it
with a one-shot eviction timer exactly `cacheTTL` (one hour) ahead; a
second call at any `t1` before the timer fires returns the identical
cached metadata without invoking the sources (whatever the sources would
return then); and once the TTL has elapsed (clock advanced to `t2`) the
entry has been evicted by the timer, so a third call performs a fresh
lookup — it invokes the sources again and returns their current outcome. -/
theorem getCachedVideoInfo_ttl_cache (v : VideoInfo) (f2 f3 : Option VideoInfo)
    (videoId : String) (t0 t1 t2 : Nat)
    (h1 : t1 < t0 + cacheTTL) (h2 : t0 + cacheTTL ≤ t2) :
    (getCachedVideoInfo (some v) ⟨[], []⟩ t0 videoId).1 = some v ∧
    (getCachedVideoInfo (some v) ⟨[], []⟩ t0 videoId).2.1 = true ∧
    (getCachedVideoInfo (some v) ⟨[], []⟩ t0 videoId).2.2.pending =
      [(t0 + cacheTTL, videoId)] ∧
    (getCachedVideoInfo f2 (cacheAdvance
      (getCachedVideoInfo (some v) ⟨[], []⟩ t0 videoId).2.2 t1) t1 videoId).1 = some v ∧
    (getCachedVideoInfo f2 (cacheAdvance
      (getCachedVideoInfo (some v) ⟨[], []⟩ t0 videoId).2.2 t1) t1 videoId).2.1 = false ∧
    (getCachedVideoInfo f3 (cacheAdvance (getCachedVideoInfo f2 (cacheAdvance
      (getCachedVideoInfo (some v) ⟨[], []⟩ t0 videoId).2.2 t1) t1 videoId).2.2 t2)
      t2 videoId).1 = f3 ∧
    (getCachedVideoInfo f3 (cacheAdvance (getCachedVideoInfo f2 (cacheAdvance
      (getCachedVideoInfo (some v) ⟨[], []⟩ t0 videoId).2.2 t1) t1 videoId).2.2 t2)
      t2 videoId).2.1 = true := by
  have hc1 : getCachedVideoInfo (some v) ⟨[], []⟩ t0 videoId =
      (some v, true, ⟨[(videoId, v)], [(t0 + cacheTTL, videoId)]⟩) := by
    simp [getCachedVideoInfo, cacheLookup, cacheSet]
  have hs1 : (getCachedVideoInfo (some v) ⟨[], []⟩ t0 videoId).2.2 =
      ⟨[(videoId, v)], [(t0 + cacheTTL, videoId)]⟩ := by rw [hc1]
  have hnd : ¬ (t0 + cacheTTL ≤ t1) := by omega
  have hdk1 : dueKeys [(t0 + cacheTTL, videoId)] t1 = [] := by simp [dueKeys, hnd]
  have hadv1 : cacheAdvance ⟨[(videoId, v)], [(t0 + cacheTTL, videoId)]⟩ t1 =
      ⟨[(videoId, v)], [(t0 + cacheTTL, videoId)]⟩ := by
    simp only [cacheAdvance, hdk1, CacheState.mk.injEq]
    refine ⟨List.filter_eq_self.mpr (fun a _ => by simp), ?_⟩
    simp [h1]
  have hc2 : getCachedVideoInfo f2 ⟨[(videoId, v)], [(t0 + cacheTTL, videoId)]⟩
      t1 videoId =
      (some v, false, ⟨[(videoId, v)], [(t0 + cacheTTL, videoId)]⟩) := by
    simp [getCachedVideoInfo, cacheLookup]
  have hs2 : (getCachedVideoInfo f2 (cacheAdvance
      (getCachedVideoInfo (some v) ⟨[], []⟩ t0 videoId).2.2 t1) t1 videoId).2.2 =
      ⟨[(videoId, v)], [(t0 + cacheTTL, videoId)]⟩ := by
    rw [hs1, hadv1, hc2]
  have hdk2 : dueKeys [(t0 + cacheTTL, videoId)] t2 = [videoId] := by
    simp [dueKeys, h2]
  have hadv2 : cacheAdvance ⟨[(videoId, v)], [(t0 + cacheTTL, videoId)]⟩ t2 =
      ⟨[], []⟩ := by
    simp only [cacheAdvance, hdk2, CacheState.mk.injEq]
    constructor
    · simp
    · simp
      omega
  have hc3 : (getCachedVideoInfo f3 (⟨[], []⟩ : CacheState) t2 videoId).1 = f3 ∧
      (getCachedVideoInfo f3 (⟨[], []⟩ : CacheState) t2 videoId).2.1 = true := by
    cases f3 <;> simp [getCachedVideoInfo, cacheLookup]
  refine ⟨?_, ?_, ?_, ?_, ?_, ?_, ?_⟩
  · rw [hc1]
  · rw [hc1]
  · rw [hc1]
  · rw [hs1, hadv1, hc2]
  · rw [hs1, hadv1, hc2]
  · rw [hs2, hadv2]
    exact hc3.1
  · rw [hs2, hadv2]
    exact hc3.2

/-- C5 witness: a fetched entry at `t0 = 0` is served from the cache at
`t1 = 5` even though the sources would by then answer differently, and at
`t2 = 3600000` the timer has evicted it, so the sources are consulted
afresh. -/
theorem getCachedVideoInfo_ttl_cache_witness :
    (getCachedVideoInfo (some ⟨"a", "b", 3⟩) ⟨[], []⟩ 0 "vidc").1 =
      some ⟨"a", "b", 3⟩ ∧
    (getCachedVideoInfo (some ⟨"x", "y", 9⟩) (cacheAdvance
      (getCachedVideoInfo (some ⟨"a", "b", 3⟩) ⟨[], []⟩ 0 "vidc").2.2 5)
      5 "vidc").1 = some ⟨"a", "b", 3⟩ ∧
    (getCachedVideoInfo (some ⟨"x", "y", 9⟩) (cacheAdvance
      (getCachedVideoInfo (some ⟨"a", "b", 3⟩) ⟨[], []⟩ 0 "vidc").2.2 5)
      5 "vidc").2.1 = false ∧
    (getCachedVideoInfo (some ⟨"x", "y", 9⟩) (cacheAdvance
      (getCachedVideoInfo (some ⟨"x", "y", 9⟩) (cacheAdvance
        (getCachedVideoInfo (some ⟨"a", "b", 3⟩) ⟨[], []⟩ 0 "vidc").2.2 5)
        5 "vidc").2.2 3600000) 3600000 "vidc").1 = some ⟨"x", "y", 9⟩ := by
  have h := getCachedVideoInfo_ttl_cache ⟨"a", "b", 3⟩ (some ⟨"x", "y", 9⟩)
    (some ⟨"x", "y", 9⟩) "vidc" 0 5 3600000 (by decide) (by decide)
  exact ⟨h.1, h.2.2.2.1, h.2.2.2.2.1, h.2.2.2.2.2.1⟩

end MP3Saas
